import Mathlib

/-!
Verification development for the procedural terrain / object-placement core
(`TerrainGenerator`, `LayoutManager`, `TerrainPlacement`).

The terrain streaming layer (`TerrainGenerator.cpp`) is embedded over exact
rational arithmetic: every quantity the control flow inspects (vertex x/z
coordinates, chunk-grid coordinates, squared distances) is rational, and the
2D gradient noise `glm::simplex` — an external library function — is kept as
an abstract parameter `Noise`, since no branch of the embedded code inspects
a height value.  Comparisons of the form `glm::length(v) < r` (with `r ≥ 0`)
are embedded as the equivalent `v.x^2 + v.y^2 < r^2`.

The placement layer (`TerrainPlacement.cpp`, `LayoutManager.cpp`) is embedded
over the reals, with the terrain's height query `GetHeightAt` abstracted to a
function `ℝ → ℝ → ℝ` and the nullable `TerrainGenerator*` argument as an
`Option`.  GPU buffer setup (`SetupChunkBuffers`), normal calculation and
biome colouring are omitted from chunk construction: they mutate only fields
(`VAO/VBO/EBO`, `normal`, `color`, `biome`) that none of the verified
operations read.
-/

namespace Terrain

/-- Generation parameters of `TerrainGenerator` (constructor arguments plus
the `SetNoiseScale`/`SetHeightScale`/`SetOctaves` setters; `m_renderDistance`
is fixed to `100` by the constructor but kept as a field). -/
structure TerrainParams where
  chunkSize : ℕ
  chunkScale : ℚ
  noiseScale : ℚ
  heightScale : ℚ
  octaves : ℕ
  renderDistance : ℚ
deriving DecidableEq

/-- Abstract 2D gradient noise, standing for the external `glm::simplex`
function applied to a `vec2` (passed componentwise). -/
abbrev Noise := ℚ → ℚ → ℚ

/-- `static_cast<int>` applied to a floating-point value: truncation toward
zero. -/
def cppTrunc (q : ℚ) : ℤ :=
  if 0 ≤ q then ⌊q⌋ else ⌈q⌉

/-- `TerrainGenerator::GetHeightNoise`: sums `m_octaves` noise layers, where
layer `i` uses frequency `m_noiseScale * 2^i` and amplitude
`m_heightScale * 0.5^i` (the source updates `amplitude *= 0.5f` and
`frequency *= 2.0f` each iteration), then clamps to the ground level
`-0.1`. -/
def GetHeightNoise (p : TerrainParams) (noise : Noise) (x z : ℚ) : ℚ :=
  let height := (List.range p.octaves).foldl
    (fun acc i =>
      acc + noise (x * (p.noiseScale * 2 ^ i)) (z * (p.noiseScale * 2 ^ i))
              * (p.heightScale * (1 / 2) ^ i)) 0
  max height (-(1 / 10))

/-- `TerrainVertex`, restricted to the fields read by the verified
operations (`position`, `texCoord`); `normal` and `color` are written but
never read by them. -/
structure TerrainVertex where
  position : ℚ × ℚ × ℚ
  texCoord : ℚ × ℚ
deriving DecidableEq

/-- The vertex built by the inner loop of
`TerrainGenerator::GenerateChunkVertices` for grid point `(x, z)` of chunk
`(chunkX, chunkZ)`. -/
def chunkVertex (p : TerrainParams) (noise : Noise) (chunkX chunkZ : ℤ)
    (x z : ℕ) : TerrainVertex :=
  let startX := chunkX * p.chunkScale
  let startZ := chunkZ * p.chunkScale
  let stepSize := p.chunkScale / ((p.chunkSize : ℚ) - 1)
  let worldX := startX + x * stepSize
  let worldZ := startZ + z * stepSize
  let height := GetHeightNoise p noise worldX worldZ
  { position := (worldX, height, worldZ)
    texCoord := ((x : ℚ) / ((p.chunkSize : ℚ) - 1),
                 (z : ℚ) / ((p.chunkSize : ℚ) - 1)) }

/-- The vertex array built by `GenerateChunkVertices`: `z` outer loop, `x`
inner loop, both over `0 .. m_chunkSize - 1`. -/
def chunkVerticesList (p : TerrainParams) (noise : Noise)
    (chunkX chunkZ : ℤ) : List TerrainVertex :=
  (List.range p.chunkSize).flatMap fun z =>
    (List.range p.chunkSize).map fun x => chunkVertex p noise chunkX chunkZ x z

/-- The triangle index list built by `GenerateChunkVertices`: two triangles
per quad cell, `z` outer loop and `x` inner loop over
`0 .. m_chunkSize - 2`. -/
def chunkIndicesList (p : TerrainParams) : List ℕ :=
  (List.range (p.chunkSize - 1)).flatMap fun z =>
    (List.range (p.chunkSize - 1)).flatMap fun x =>
      let topLeft := z * p.chunkSize + x
      let topRight := topLeft + 1
      let bottomLeft := (z + 1) * p.chunkSize + x
      let bottomRight := bottomLeft + 1
      [topLeft, bottomLeft, topRight, topRight, bottomLeft, bottomRight]

/-- `TerrainChunk`, restricted to the fields the verified operations read
(`vertices`, `indices`, `isGenerated`). -/
structure TerrainChunk where
  vertices : List TerrainVertex
  indices : List ℕ
  isGenerated : Bool
deriving DecidableEq

/-- `TerrainGenerator::CreateChunk`: builds geometry and marks the chunk
generated.  `CalculateNormals`, `AssignBiomeColors` and `SetupChunkBuffers`
only write fields not present in this model; the `catch` branch is
unreachable here since the embedded construction is total. -/
def CreateChunk (p : TerrainParams) (noise : Noise) (chunkX chunkZ : ℤ) :
    TerrainChunk :=
  { vertices := chunkVerticesList p noise chunkX chunkZ
    indices := chunkIndicesList p
    isGenerated := true }

/-- Mutable state of a `TerrainGenerator`: the active chunk list, the last
accepted query center, and the single-slot terrain-updated flag. -/
structure TerrainState where
  chunks : List TerrainChunk
  lastCenterPos : ℚ × ℚ
  terrainUpdated : Bool
deriving DecidableEq

/-- State established by the `TerrainGenerator` constructor:
`m_lastCenterPos = (-9999, -9999)`, no chunks, flag clear. -/
def initialState : TerrainState :=
  { chunks := []
    lastCenterPos := (-9999, -9999)
    terrainUpdated := false }

/-- The center-chunk coordinate computed at the top of
`TerrainGenerator::GenerateTerrainAt`:
`static_cast<int>(centerPos.x / m_chunkScale)` componentwise. -/
def centerChunkOf (p : TerrainParams) (centerPos : ℚ × ℚ) : ℤ × ℤ :=
  (cppTrunc (centerPos.1 / p.chunkScale), cppTrunc (centerPos.2 / p.chunkScale))

/-- The square window of chunk coordinates visited by the generation loops:
`x` outer from `centerX - radius` to `centerX + radius`, `z` inner. -/
def windowCoords (centerX centerZ radius : ℤ) : List (ℤ × ℤ) :=
  (List.range (2 * radius.toNat + 1)).flatMap fun i =>
    (List.range (2 * radius.toNat + 1)).map fun j =>
      (centerX - radius + i, centerZ - radius + j)

/-- The per-chunk test of the existence scan in `GenerateTerrainAt`: a chunk
matches coordinate `(x, z)` when
`abs(int(vertices[0].position.x / chunkScale) - x) < 1` and likewise for
`z`.  Chunks built by this model are never empty; an empty vertex list
cannot match (the source would index `vertices[0]` out of bounds). -/
def chunkMatchesCoord (p : TerrainParams) (chunk : TerrainChunk)
    (x z : ℤ) : Bool :=
  match chunk.vertices.head? with
  | none => false
  | some v0 =>
      decide ((cppTrunc (v0.position.1 / p.chunkScale) - x).natAbs < 1) &&
      decide ((cppTrunc (v0.position.2.2 / p.chunkScale) - z).natAbs < 1)

/-- The existence scan of `GenerateTerrainAt` over the active chunk list
(linear scan with early exit). -/
def chunkExistsAt (p : TerrainParams) (chunks : List TerrainChunk)
    (x z : ℤ) : Bool :=
  chunks.any fun chunk => chunkMatchesCoord p chunk x z

/-- The chunk-creation double loop of `GenerateTerrainAt`: for each window
coordinate, create the chunk if no existing chunk matches, appending to the
chunk vector; the second component is `newChunksGenerated`. -/
def generateWindow (p : TerrainParams) (noise : Noise)
    (chunks : List TerrainChunk) (coords : List (ℤ × ℤ)) :
    List TerrainChunk × Bool :=
  coords.foldl
    (fun acc xz =>
      if chunkExistsAt p acc.1 xz.1 xz.2 then acc
      else (acc.1 ++ [CreateChunk p noise xz.1 xz.2], true))
    (chunks, false)

/-- The retention test of `CleanupDistantChunks` for one chunk: a null/empty
chunk is dropped, and otherwise the chunk is kept unless its middle vertex
(`vertices[vertices.size()/2]`) lies farther than `1.5 * m_renderDistance`
from `centerPos` (distance comparison embedded on squares). -/
def chunkWithinRange (p : TerrainParams) (centerPos : ℚ × ℚ)
    (chunk : TerrainChunk) : Bool :=
  match chunk.vertices.get? (chunk.vertices.length / 2) with
  | none => false
  | some cv =>
      let dx := cv.position.1 - centerPos.1
      let dz := cv.position.2.2 - centerPos.2
      !decide ((p.renderDistance * (3 / 2)) ^ 2 < dx ^ 2 + dz ^ 2)

/-- `TerrainGenerator::CleanupDistantChunks` (a `std::remove_if`/`erase`
pass, i.e. a filter by the retention test). -/
def CleanupDistantChunks (p : TerrainParams) (chunks : List TerrainChunk)
    (centerPos : ℚ × ℚ) : List TerrainChunk :=
  chunks.filter fun chunk => chunkWithinRange p centerPos chunk

/-- `TerrainGenerator::GenerateTerrainAt`: hysteresis check against the last
accepted center (`glm::length(posDiff) < m_chunkScale * 0.5`, embedded on
squares), then chunk creation over the radius-3 window, cleanup of distant
chunks, and the update of the terrain-updated flag when any chunk was
created. -/
def GenerateTerrainAt (p : TerrainParams) (noise : Noise) (s : TerrainState)
    (centerPos : ℚ × ℚ) : TerrainState :=
  let posDiff := (centerPos.1 - s.lastCenterPos.1, centerPos.2 - s.lastCenterPos.2)
  if posDiff.1 ^ 2 + posDiff.2 ^ 2 < (p.chunkScale * (1 / 2)) ^ 2 then s
  else
    let center := centerChunkOf p centerPos
    let radius : ℤ := 3
    let gw := generateWindow p noise s.chunks (windowCoords center.1 center.2 radius)
    { chunks := CleanupDistantChunks p gw.1 centerPos
      lastCenterPos := centerPos
      terrainUpdated := s.terrainUpdated || gw.2 }

/-- `TerrainGenerator::HasTerrainUpdated`. -/
def HasTerrainUpdated (s : TerrainState) : Bool :=
  s.terrainUpdated

/-- `TerrainGenerator::ResetTerrainUpdateFlag`. -/
def ResetTerrainUpdateFlag (s : TerrainState) : TerrainState :=
  { s with terrainUpdated := false }

/-- `TerrainGenerator::GetCollisionData`: clears both caller-supplied output
vectors, then appends every generated chunk's vertex positions and its
indices shifted by the running vertex offset.  Returns the final contents of
the two output vectors. -/
def GetCollisionData (s : TerrainState)
    (verticesIn : List (ℚ × ℚ × ℚ)) (indicesIn : List ℕ) :
    List (ℚ × ℚ × ℚ) × List ℕ :=
  let _ := verticesIn
  let _ := indicesIn
  let out := s.chunks.foldl
    (fun (acc : List (ℚ × ℚ × ℚ) × List ℕ × ℕ) chunk =>
      if chunk.isGenerated then
        (acc.1 ++ chunk.vertices.map (fun v => v.position),
         acc.2.1 ++ chunk.indices.map (fun i => i + acc.2.2),
         acc.2.2 + chunk.vertices.length)
      else acc)
    ([], [], 0)
  (out.1, out.2.1)

/-- One externally visible operation on the chunk store. -/
inductive Op where
  | generate (centerPos : ℚ × ℚ)
  | reset
deriving DecidableEq

/-- Execute one operation. -/
def execOp (p : TerrainParams) (noise : Noise) (s : TerrainState) :
    Op → TerrainState
  | Op.generate c => GenerateTerrainAt p noise s c
  | Op.reset => ResetTerrainUpdateFlag s

/-- Execute a sequence of operations from a state. -/
def execOps (p : TerrainParams) (noise : Noise) (s : TerrainState)
    (ops : List Op) : TerrainState :=
  ops.foldl (execOp p noise) s

/-- The parameters the application configures
(`TerrainGenerator(16, 8.0f)` followed by `SetNoiseScale(0.1)`,
`SetHeightScale(2.0)`, `SetOctaves(3)`). -/
def scenarioParams : TerrainParams :=
  { chunkSize := 16
    chunkScale := 8
    noiseScale := 1 / 10
    heightScale := 2
    octaves := 3
    renderDistance := 100 }

/-- Same configuration with `chunkSize = 2` (also a legal constructor
argument), used for concrete streaming traces. -/
def traceParams : TerrainParams :=
  { chunkSize := 2
    chunkScale := 8
    noiseScale := 1 / 10
    heightScale := 2
    octaves := 3
    renderDistance := 100 }

/-- A concrete noise instantiation. -/
def zeroNoise : Noise := fun _ _ => 0

/-- Concrete operation trace, first step: generate at `(0, 0)` from the
freshly constructed state. -/
def traceStateA : TerrainState :=
  GenerateTerrainAt traceParams zeroNoise initialState (0, 0)

/-- Second step: generate at `(152, 0)`. -/
def traceStateB : TerrainState :=
  GenerateTerrainAt traceParams zeroNoise traceStateA (152, 0)

/-- Third step: acknowledge the update. -/
def traceStateC : TerrainState :=
  ResetTerrainUpdateFlag traceStateB

/-- Fourth step: generate at `(156.5, 0)` — accepted by the hysteresis check
(the center moved `4.5 > 8 * 0.5`), all window chunks already exist, and two
distant chunks get evicted. -/
def traceStateD : TerrainState :=
  GenerateTerrainAt traceParams zeroNoise traceStateC (313 / 2, 0)

end Terrain

namespace Placement

open scoped Classical

/-- 3D vector (`glm::vec3`), as components `(x, y, z)`. -/
abbrev Vec3 := ℝ × ℝ × ℝ

/-- `glm::length(a - b)`: Euclidean distance of two points. -/
noncomputable def dist3 (a b : Vec3) : ℝ :=
  Real.sqrt ((a.1 - b.1) ^ 2 + (a.2.1 - b.2.1) ^ 2 + (a.2.2 - b.2.2) ^ 2)

/-- The terrain's height query `TerrainGenerator::GetHeightAt`, abstracted
to the function `(x, z) ↦ height` it implements; the nullable
`TerrainGenerator*` argument of the placement routines becomes
`Option HeightMap`. -/
abbrev HeightMap := ℝ → ℝ → ℝ

/-- `TerrainPlacement::PlaceOnTerrain`: with a null terrain the input is
returned unchanged; otherwise the vertical coordinate is replaced by
`terrainHeight + objectHeight + safetyOffset (1.0)` and clamped upward to
`minHeight (0.5)`. -/
noncomputable def PlaceOnTerrain (position : Vec3)
    (terrain : Option HeightMap) (objectHeight : ℝ) : Vec3 :=
  match terrain with
  | none => position
  | some getHeightAt =>
      let terrainHeight := getHeightAt position.1 position.2.2
      let safetyOffset : ℝ := 1
      let adjustedY := terrainHeight + objectHeight + safetyOffset
      let minHeight : ℝ := 1 / 2
      (position.1, if adjustedY < minHeight then minHeight else adjustedY,
       position.2.2)

/-- The sample point of iteration `i` of the loop in
`TerrainPlacement::GetAreaHeightVariation`: angle `2π·i / 8` on the circle
of radius `checkRadius` around the center. -/
noncomputable def checkPoint (center : Vec3) (checkRadius : ℝ) (i : ℕ) :
    ℝ × ℝ :=
  let angle := 2 * Real.pi * i / 8
  (center.1 + checkRadius * Real.cos angle,
   center.2.2 + checkRadius * Real.sin angle)

/-- `TerrainPlacement::GetAreaHeightVariation`: `0` for a null terrain;
otherwise the running maximum (starting from `0`) of the absolute
differences between the heights at the `8` circle samples and the height at
the center. -/
noncomputable def GetAreaHeightVariation (center : Vec3)
    (terrain : Option HeightMap) (checkRadius : ℝ) : ℝ :=
  match terrain with
  | none => 0
  | some getHeightAt =>
      let centerHeight := getHeightAt center.1 center.2.2
      ((List.range 8).map fun i =>
        |getHeightAt (checkPoint center checkRadius i).1
            (checkPoint center checkRadius i).2 - centerHeight|).foldl max 0

/-- `TerrainPlacement::IsPositionFlat`: `false` for a null terrain;
otherwise the area height variation at check radius `2.0` must not exceed
the tolerance. -/
def IsPositionFlat (position : Vec3) (terrain : Option HeightMap)
    (tolerance : ℝ) : Prop :=
  match terrain with
  | none => False
  | some _ => GetAreaHeightVariation position terrain 2 ≤ tolerance

/-- `LayoutManager::LayoutZone` (the `objectPositions` scratch field is
never written by the verified operations). -/
structure LayoutZone where
  center : Vec3
  radius : ℝ
  theme : String
  objectPositions : List Vec3 := []
  maxObjects : ℕ
  minDistance : ℝ

/-- `LayoutObject`. -/
structure LayoutObject where
  position : Vec3
  rotation : Vec3
  scale : Vec3
  type : String
  theme : String

/-- `LayoutManager::CreateZonedLayout`: the five statically initialized
zones. -/
noncomputable def CreateZonedLayout : List LayoutZone :=
  [{ center := (0, 0, 0), radius := 8, theme := "treasure",
     maxObjects := 3, minDistance := 2 },
   { center := (15, 0, 15), radius := 12, theme := "forest",
     maxObjects := 6, minDistance := 3 },
   { center := (15, 0, -15), radius := 12, theme := "desert",
     maxObjects := 4, minDistance := 4 },
   { center := (-15, 0, 15), radius := 12, theme := "mountain",
     maxObjects := 3, minDistance := 5 },
   { center := (-15, 0, -15), radius := 12, theme := "grassland",
     maxObjects := 5, minDistance := 7 / 2 }]

/-- `LayoutManager::CheckMinimumDistance`: the scan over the accepted
positions returns `true` exactly when no existing position is closer than
`minDist` (the loop early-returns `false` on the first violation). -/
def CheckMinimumDistance (newPos : Vec3) (existingPositions : List Vec3)
    (minDist : ℝ) : Prop :=
  ∀ pos ∈ existingPositions, ¬ (dist3 newPos pos < minDist)

/-- `LayoutManager::IsWithinTerrainBounds`: `|x|, |z| ≤ terrainSize (40)`. -/
def IsWithinTerrainBounds (position : Vec3) : Prop :=
  |position.1| ≤ 40 ∧ |position.2.2| ≤ 40

/-- The stream of successive values produced by the random distributions
(`angleDist`, `radiusDist`, the integer type distributions) applied to the
`std::mt19937` engine; every distribution call consumes the next value. -/
abbrev RandStream := ℕ → ℝ

/-- Drop the first `k` values of a random stream. -/
def rsDrop (g : RandStream) (k : ℕ) : RandStream := fun n => g (n + k)

/-- The object-type selection of `PlaceObjectsInZone`: the external
`std::uniform_int_distribution` draw is represented by one stream value,
with its equally likely outcomes mapped to equal-width cases ("treasure"
draws from `{chest, key}`, other themes from `{chest, key, decoration}`). -/
noncomputable def chooseType (theme : String) (d : ℝ) : String :=
  if theme = "treasure" then
    if d < 1 / 2 then "chest" else "key"
  else
    if d < 1 / 3 then "chest"
    else if d < 2 / 3 then "key"
    else "decoration"

/-- The inner `while (!validPosition && attempts < maxAttempts)` loop of
`LayoutManager::PlaceObjectsInZone`: draw an angle and a radius fraction,
form the candidate on the zone disc, reject it when outside the terrain
bounds, otherwise snap it with `PlaceOnTerrain` (object height `0.5`) and
accept it only when `CheckMinimumDistance` passes. -/
noncomputable def attemptPlace (zone : LayoutZone)
    (terrain : Option HeightMap) (used : List Vec3) :
    RandStream → ℕ → Option Vec3 × RandStream
  | g, 0 => (none, g)
  | g, fuel + 1 =>
      let angle := g 0
      let radius := g 1 * zone.radius
      let g' := rsDrop g 2
      let position : Vec3 :=
        (zone.center.1 + radius * Real.cos angle,
         zone.center.2.1 + 0,
         zone.center.2.2 + radius * Real.sin angle)
      if IsWithinTerrainBounds position then
        let snapped := PlaceOnTerrain position terrain (1 / 2)
        if CheckMinimumDistance snapped used zone.minDistance then
          (some snapped, g')
        else attemptPlace zone terrain used g' fuel
      else attemptPlace zone terrain used g' fuel

/-- The outer `for (int i = 0; i < zone.maxObjects; ++i)` loop of
`PlaceObjectsInZone`: each accepted position is appended to
`usedPositions`, and an object with randomized yaw and type is appended to
the output vector; an exhausted attempt budget skips the slot. -/
noncomputable def placeLoop (zone : LayoutZone) (terrain : Option HeightMap) :
    ℕ → RandStream → List Vec3 → List LayoutObject →
    List Vec3 × List LayoutObject
  | 0, _, used, objs => (used, objs)
  | k + 1, g, used, objs =>
      match attemptPlace zone terrain used g 50 with
      | (none, g') => placeLoop zone terrain k g' used objs
      | (some position, g') =>
          let obj : LayoutObject :=
            { position := position
              rotation := (0, g' 0, 0)
              scale := (1, 1, 1)
              type := chooseType zone.theme (g' 1)
              theme := zone.theme }
          placeLoop zone terrain k (rsDrop g' 2) (used ++ [position])
            (objs ++ [obj])

/-- `LayoutManager::PlaceObjectsInZone`: the list of objects this call
appends to the caller's output vector (`maxAttempts = 50` per slot). -/
noncomputable def PlaceObjectsInZone (zone : LayoutZone)
    (terrain : Option HeightMap) (g : RandStream) : List LayoutObject :=
  (placeLoop zone terrain zone.maxObjects g [] []).2

/-- A concrete height map with a 10-unit discontinuity at the single point
`(1, 0)` — strictly inside the flatness check radius `2` around the origin
but distinct from the center and from all 8 circle samples. -/
noncomputable def hSpike : HeightMap :=
  fun x z => if x = 1 ∧ z = 0 then 10 else 0

/-- A concrete height map whose 10-unit discontinuity region contains the
sample point `(2, 0)` of the flatness check around the origin. -/
noncomputable def hStep : HeightMap :=
  fun x z => if x = 2 ∧ z = 0 then 10 else 0

end Placement

namespace Terrain

lemma flatMapRange_length {α : Type} (m n : ℕ) (f : ℕ → ℕ → α) :
    ((List.range m).flatMap fun z => (List.range n).map fun x => f x z).length
      = m * n := by
  induction m with
  | zero => simp
  | succ m ih =>
      rw [List.range_succ, List.flatMap_append, List.length_append, ih]
      simp [Nat.succ_mul]

lemma flatMapRange_get? {α : Type} (m n : ℕ) (f : ℕ → ℕ → α) (q r : ℕ)
    (hq : q < m) (hr : r < n) :
    ((List.range m).flatMap fun z => (List.range n).map fun x => f x z).get?
        (q * n + r) = some (f r q) := by
  induction m with
  | zero => omega
  | succ m ih =>
      rw [List.range_succ, List.flatMap_append]
      rcases Nat.lt_or_ge q m with h | h
      · have hlen : q * n + r <
            ((List.range m).flatMap fun z => (List.range n).map fun x => f x z).length := by
          rw [flatMapRange_length]
          have h1 : (q + 1) * n ≤ m * n := Nat.mul_le_mul_right n h
          have h2 : (q + 1) * n = q * n + n := Nat.succ_mul q n
          omega
        rw [List.get?_append hlen]
        exact ih h
      · have hq' : q = m := by omega
        subst hq'
        have hlen : ((List.range q).flatMap fun z => (List.range n).map fun x => f x z).length
            = q * n := flatMapRange_length q n f
        rw [List.get?_append_right (by omega)]
        rw [hlen]
        simp only [List.flatMap_cons, List.flatMap_nil, List.append_nil]
        have hidx : q * n + r - q * n = r := by omega
        rw [hidx, List.get?_map, List.get?_range hr]
        rfl

lemma cppTrunc_intCast (a : ℤ) : cppTrunc (a : ℚ) = a := by
  unfold cppTrunc
  rcases le_or_lt 0 (a : ℚ) with h | h
  · rw [if_pos h, Int.floor_intCast]
  · rw [if_neg (not_le.mpr h), Int.ceil_intCast]

lemma chunkVerticesList_length (p : TerrainParams) (noise : Noise) (a b : ℤ) :
    (chunkVerticesList p noise a b).length = p.chunkSize * p.chunkSize :=
  flatMapRange_length p.chunkSize p.chunkSize fun x z => chunkVertex p noise a b x z

lemma chunkVerticesList_head? (p : TerrainParams) (noise : Noise) (a b : ℤ)
    (h : 1 ≤ p.chunkSize) :
    (chunkVerticesList p noise a b).head? = some (chunkVertex p noise a b 0 0) := by
  rw [← List.get?_zero]
  have h0 : (0 : ℕ) = 0 * p.chunkSize + 0 := by ring
  conv_lhs => rw [h0]
  exact flatMapRange_get? p.chunkSize p.chunkSize _ 0 0 (by omega) (by omega)

lemma chunkVertex_zero_position (p : TerrainParams) (noise : Noise) (a b : ℤ) :
    (chunkVertex p noise a b 0 0).position.1 = (a : ℚ) * p.chunkScale ∧
    (chunkVertex p noise a b 0 0).position.2.2 = (b : ℚ) * p.chunkScale := by
  constructor <;> simp [chunkVertex]

lemma chunkMatchesCoord_createChunk (p : TerrainParams) (noise : Noise)
    (a b x z : ℤ) (hscale : p.chunkScale ≠ 0) (hsize : 1 ≤ p.chunkSize) :
    chunkMatchesCoord p (CreateChunk p noise a b) x z
      = (decide (a = x) && decide (b = z)) := by
  unfold chunkMatchesCoord CreateChunk
  simp only []
  rw [chunkVerticesList_head? p noise a b hsize]
  dsimp only
  have e1 : (chunkVertex p noise a b 0 0).position.1 / p.chunkScale = (a : ℚ) := by
    rw [(chunkVertex_zero_position p noise a b).1, mul_div_cancel_right₀ _ hscale]
  have e2 : (chunkVertex p noise a b 0 0).position.2.2 / p.chunkScale = (b : ℚ) := by
    rw [(chunkVertex_zero_position p noise a b).2, mul_div_cancel_right₀ _ hscale]
  rw [e1, e2, cppTrunc_intCast, cppTrunc_intCast]
  have d1 : decide ((a - x).natAbs < 1) = decide (a = x) :=
    decide_eq_decide.mpr (by omega)
  have d2 : decide ((b - z).natAbs < 1) = decide (b = z) :=
    decide_eq_decide.mpr (by omega)
  rw [d1, d2]

end Terrain

namespace Terrain

lemma generateWindow_fresh (p : TerrainParams) (noise : Noise)
    (hscale : p.chunkScale ≠ 0) (hsize : 1 ≤ p.chunkSize) :
    ∀ (coords done : List (ℤ × ℤ)) (flag : Bool),
      (done ++ coords).Nodup →
      coords.foldl
        (fun acc xz =>
          if chunkExistsAt p acc.1 xz.1 xz.2 then acc
          else (acc.1 ++ [CreateChunk p noise xz.1 xz.2], true))
        (done.map (fun c => CreateChunk p noise c.1 c.2), flag)
      = ((done ++ coords).map (fun c => CreateChunk p noise c.1 c.2),
         flag || !coords.isEmpty) := by
  intro coords
  induction coords with
  | nil =>
      intro done flag _
      simp
  | cons c rest ih =>
      intro done flag hnd
      rw [List.foldl_cons]
      have hni : chunkExistsAt p (done.map (fun c => CreateChunk p noise c.1 c.2)) c.1 c.2
          = false := by
        unfold chunkExistsAt
        rw [List.any_eq_false]
        intro chunk hchunk
        obtain ⟨d, hd, rfl⟩ := List.mem_map.mp hchunk
        rw [chunkMatchesCoord_createChunk p noise d.1 d.2 c.1 c.2 hscale hsize]
        simp only [Bool.and_eq_true, decide_eq_true_eq, not_and]
        intro h1 h2
        have hdc : d = c := Prod.ext h1 h2
        rw [hdc] at hd
        have hdisj := (List.nodup_append.mp hnd).2.2
        exact hdisj hd (List.mem_cons_self c rest)
      simp only [hni, Bool.false_eq_true, if_false]
      have hsingle : [CreateChunk p noise c.1 c.2]
          = List.map (fun c => CreateChunk p noise c.1 c.2) [c] := rfl
      rw [hsingle, ← List.map_append]
      have hnd' : ((done ++ [c]) ++ rest).Nodup := by
        rw [List.append_assoc]
        exact hnd
      have := ih (done ++ [c]) true hnd'
      rw [this]
      simp [List.append_assoc]

lemma generateWindow_initial (p : TerrainParams) (noise : Noise)
    (hscale : p.chunkScale ≠ 0) (hsize : 1 ≤ p.chunkSize)
    (coords : List (ℤ × ℤ)) (hnd : coords.Nodup) :
    generateWindow p noise [] coords
      = (coords.map (fun c => CreateChunk p noise c.1 c.2), !coords.isEmpty) := by
  unfold generateWindow
  have h := generateWindow_fresh p noise hscale hsize coords [] false (by simpa using hnd)
  simp only [List.map_nil, List.nil_append, Bool.false_or] at h
  exact h

set_option maxRecDepth 8000 in
lemma scenario_chunk_within_range (noise : Noise) (a b : ℤ)
    (ha1 : -3 ≤ a) (ha2 : a ≤ 3) (hb1 : -3 ≤ b) (hb2 : b ≤ 3) :
    chunkWithinRange scenarioParams (0, 0) (CreateChunk scenarioParams noise a b)
      = true := by
  unfold chunkWithinRange CreateChunk
  simp only []
  have hlen : (chunkVerticesList scenarioParams noise a b).length = 256 := by
    rw [chunkVerticesList_length]; rfl
  rw [hlen]
  have h128 : (256 : ℕ) / 2 = 128 := by norm_num
  rw [h128]
  have hidx : (128 : ℕ) = 8 * scenarioParams.chunkSize + 0 := by rfl
  have hget : (chunkVerticesList scenarioParams noise a b).get? 128
      = some (chunkVertex scenarioParams noise a b 0 8) := by
    unfold chunkVerticesList
    conv_lhs => rw [hidx]
    exact flatMapRange_get? _ _ _ 8 0 (by norm_num [scenarioParams]) (by norm_num [scenarioParams])
  rw [hget]
  dsimp only
  have e1 : (chunkVertex scenarioParams noise a b 0 8).position.1 = (a : ℚ) * 8 := by
    simp [chunkVertex, scenarioParams]
  have e2 : (chunkVertex scenarioParams noise a b 0 8).position.2.2
      = (b : ℚ) * 8 + 64 / 15 := by
    simp [chunkVertex, scenarioParams]
    try norm_num
    try ring
  rw [e1, e2]
  simp only [Bool.not_eq_true', decide_eq_false_iff_not, not_lt]
  have hA : (-3 : ℚ) ≤ (a : ℚ) := by exact_mod_cast ha1
  have hA' : (a : ℚ) ≤ 3 := by exact_mod_cast ha2
  have hB : (-3 : ℚ) ≤ (b : ℚ) := by exact_mod_cast hb1
  have hB' : (b : ℚ) ≤ 3 := by exact_mod_cast hb2
  have hsq1 : ((a : ℚ) * 8 - 0) ^ 2 ≤ 576 := by nlinarith
  have hsq2 : ((b : ℚ) * 8 + 64 / 15 - 0) ^ 2 ≤ 800 := by nlinarith
  norm_num [scenarioParams]
  nlinarith

/-- C2: with the application's construction parameters
(`chunkSize = 16`, `chunkScale = 8`, `noiseScale = 0.1`, `heightScale = 2`,
`octaves = 3`) and a freshly constructed generator, the first
`GenerateTerrainAt (0, 0)` call creates exactly the 49 chunks of the 7×7
radius-3 window around chunk `(0, 0)` (none evicted), and an immediately
following second `GenerateTerrainAt (0, 0)` call is a no-op (creates 0
chunks) because the center moved less than half a chunk-scale — for every
noise function. -/
theorem first_generate_creates_49 (noise : Noise) :
    (GenerateTerrainAt scenarioParams noise initialState (0, 0)).chunks
      = (windowCoords 0 0 3).map (fun c => CreateChunk scenarioParams noise c.1 c.2)
    ∧ (GenerateTerrainAt scenarioParams noise initialState (0, 0)).chunks.length = 49
    ∧ GenerateTerrainAt scenarioParams noise
        (GenerateTerrainAt scenarioParams noise initialState (0, 0)) (0, 0)
      = GenerateTerrainAt scenarioParams noise initialState (0, 0) := by
  have hc : centerChunkOf scenarioParams (0, 0) = (0, 0) := by
    unfold centerChunkOf cppTrunc
    norm_num [scenarioParams]
  have hnd : (windowCoords 0 0 3).Nodup := by decide
  have hbounds : ∀ c ∈ windowCoords 0 0 3,
      -3 ≤ c.1 ∧ c.1 ≤ 3 ∧ -3 ≤ c.2 ∧ c.2 ≤ 3 := by decide
  have hempty : (windowCoords 0 0 3).isEmpty = false := by decide
  have hgw := generateWindow_initial scenarioParams noise
    (by norm_num [scenarioParams]) (by norm_num [scenarioParams]) _ hnd
  have hkeep : CleanupDistantChunks scenarioParams
      ((windowCoords 0 0 3).map (fun c => CreateChunk scenarioParams noise c.1 c.2)) (0, 0)
      = (windowCoords 0 0 3).map (fun c => CreateChunk scenarioParams noise c.1 c.2) := by
    unfold CleanupDistantChunks
    apply List.filter_eq_self.mpr
    intro ch hch
    obtain ⟨c, hcmem, rfl⟩ := List.mem_map.mp hch
    obtain ⟨h1, h2, h3, h4⟩ := hbounds c hcmem
    exact scenario_chunk_within_range noise c.1 c.2 h1 h2 h3 h4
  have hlen49 : ((windowCoords 0 0 3).map
      (fun c => CreateChunk scenarioParams noise c.1 c.2)).length = 49 := by
    rw [List.length_map]
    decide
  have hstep : GenerateTerrainAt scenarioParams noise initialState (0, 0)
      = { chunks := (windowCoords 0 0 3).map
            (fun c => CreateChunk scenarioParams noise c.1 c.2),
          lastCenterPos := (0, 0), terrainUpdated := true } := by
    simp only [GenerateTerrainAt, initialState]
    rw [if_neg (by norm_num [scenarioParams])]
    rw [hc]
    dsimp only
    rw [hgw]
    dsimp only
    rw [hkeep, hempty]
    rfl
  refine ⟨by rw [hstep], by rw [hstep]; exact hlen49, ?_⟩
  rw [hstep]
  simp only [GenerateTerrainAt]
  rw [if_pos (by norm_num [scenarioParams])]

end Terrain

namespace Terrain

/-- C1 (amended): `HasTerrainUpdated` is true from the moment any chunk is
created and stays true until `ResetTerrainUpdateFlag` is called; chunk
eviction alone does not set the flag.  Precisely: after `GenerateTerrainAt`
the flag is the old flag OR-ed with "the call passed the hysteresis check
and its creation loop created at least one chunk", and reset clears it. -/
theorem terrain_updated_flag_spec (p : TerrainParams) (noise : Noise)
    (s : TerrainState) (c : ℚ × ℚ) :
    HasTerrainUpdated (GenerateTerrainAt p noise s c) =
      (s.terrainUpdated ||
        (!decide ((c.1 - s.lastCenterPos.1) ^ 2 + (c.2 - s.lastCenterPos.2) ^ 2 <
            (p.chunkScale * (1 / 2)) ^ 2) &&
         (generateWindow p noise s.chunks
            (windowCoords (centerChunkOf p c).1 (centerChunkOf p c).2 3)).2))
    ∧ HasTerrainUpdated (ResetTerrainUpdateFlag s) = false := by
  constructor
  · unfold HasTerrainUpdated
    simp only [GenerateTerrainAt]
    by_cases h : (c.1 - s.lastCenterPos.1) ^ 2 + (c.2 - s.lastCenterPos.2) ^ 2 <
        (p.chunkScale * (1 / 2)) ^ 2
    · rw [if_pos h, decide_eq_true h]
      simp only [Bool.not_true, Bool.false_and, Bool.or_false]
    · rw [if_neg h, decide_eq_false h]
      simp only [Bool.not_false, Bool.true_and]
  · rfl

set_option maxRecDepth 100000 in
attribute [local semireducible] Rat.add Rat.mul Rat.sub Rat.inv Rat.ofScientific in
/-- C1 counterexample: a concrete four-step trace (generate at `(0,0)`,
generate at `(152,0)`, acknowledge, generate at `(156.5,0)`) in which the
final call evicts two chunks (the chunk count drops from 70 to 68) yet
creates none, and `HasTerrainUpdated` remains `false` — refuting the claim
that the flag becomes true from the moment any chunk is evicted. -/
theorem terrain_updated_eviction_counterexample :
    traceStateC.chunks.length = 70 ∧ traceStateD.chunks.length = 68 ∧
    HasTerrainUpdated traceStateD = false := by
  decide

/-- C5 (amended): `GenerateTerrainAt` identifies the center chunk by
truncating `centerPos / chunkScale` toward zero (C++ `static_cast<int>`);
this agrees with rounding toward negative infinity (floor) whenever both
quotient components are nonnegative, e.g. for nonnegative coordinates with
positive chunk scale. -/
theorem centerChunk_floor_of_nonneg (p : TerrainParams) (c : ℚ × ℚ)
    (hscale : 0 < p.chunkScale) (h1 : 0 ≤ c.1) (h2 : 0 ≤ c.2) :
    centerChunkOf p c = (⌊c.1 / p.chunkScale⌋, ⌊c.2 / p.chunkScale⌋) := by
  unfold centerChunkOf cppTrunc
  rw [if_pos (div_nonneg h1 hscale.le), if_pos (div_nonneg h2 hscale.le)]

/-- C5 witness: at center `(12, 20)` with chunk scale `8` the computed
center chunk equals the floor form. -/
theorem centerChunk_floor_witness :
    centerChunkOf scenarioParams (12, 20) =
      (⌊(12 : ℚ) / scenarioParams.chunkScale⌋,
       ⌊(20 : ℚ) / scenarioParams.chunkScale⌋) :=
  centerChunk_floor_of_nonneg scenarioParams (12, 20)
    (by norm_num [scenarioParams]) (by norm_num) (by norm_num)

attribute [local semireducible] Rat.add Rat.mul Rat.sub Rat.inv Rat.ofScientific in
/-- C5 counterexample: at center `(-4, 0)` with chunk scale `8` the code
computes chunk `(0, 0)` (truncation toward zero of `-0.5`), not the floor
`(-1, 0)` — refuting the claim that the chunk coordinate is always the
quotient rounded toward negative infinity. -/
theorem centerChunk_floor_counterexample :
    centerChunkOf scenarioParams (-4, 0) ≠
      (⌊(-4 : ℚ) / scenarioParams.chunkScale⌋,
       ⌊(0 : ℚ) / scenarioParams.chunkScale⌋) := by
  decide

/-- C6: for any two horizontally (resp. vertically) adjacent chunks and any
row (resp. column) index `j`, the vertex the left chunk computes at its last
column equals — as a full position, hence in particular in height — the
vertex the right chunk computes at its column 0: both chunks evaluate the
same world coordinate `cx·chunkScale + (chunkSize−1)·stepSize =
(cx+1)·chunkScale`, so the shared-edge heights agree (requires
`chunkSize ≥ 2`, as in any meaningful configuration). -/
theorem seam_continuity (p : TerrainParams) (noise : Noise) (cx cz : ℤ)
    (j : ℕ) (hsize : 2 ≤ p.chunkSize) :
    (chunkVertex p noise cx cz (p.chunkSize - 1) j).position =
      (chunkVertex p noise (cx + 1) cz 0 j).position ∧
    (chunkVertex p noise cx cz j (p.chunkSize - 1)).position =
      (chunkVertex p noise cx (cz + 1) j 0).position := by
  have h1 : 1 ≤ p.chunkSize := le_trans (by norm_num) hsize
  have hcast : ((p.chunkSize - 1 : ℕ) : ℚ) = (p.chunkSize : ℚ) - 1 := by
    rw [Nat.cast_sub h1, Nat.cast_one]
  have hne : (p.chunkSize : ℚ) - 1 ≠ 0 := by
    have h2 : (2 : ℚ) ≤ (p.chunkSize : ℚ) := by exact_mod_cast hsize
    linarith
  have hx : ((p.chunkSize - 1 : ℕ) : ℚ) * (p.chunkScale / ((p.chunkSize : ℚ) - 1))
      = p.chunkScale := by
    rw [hcast]; field_simp
  constructor
  · simp only [chunkVertex]
    rw [hx]
    push_cast
    ring_nf
  · simp only [chunkVertex]
    rw [hx]
    push_cast
    ring_nf

/-- C6 witness: the concrete seam vertices of chunks `(0,0)`/`(1,0)` and
`(0,0)`/`(0,1)` at row/column 5 under the application's parameters. -/
theorem seam_continuity_witness :
    (chunkVertex scenarioParams zeroNoise 0 0 (scenarioParams.chunkSize - 1) 5).position =
      (chunkVertex scenarioParams zeroNoise (0 + 1) 0 0 5).position ∧
    (chunkVertex scenarioParams zeroNoise 0 0 5 (scenarioParams.chunkSize - 1)).position =
      (chunkVertex scenarioParams zeroNoise 0 (0 + 1) 5 0).position :=
  seam_continuity scenarioParams zeroNoise 0 0 5 (by decide)

end Terrain

namespace Placement

/-- C4: for every input position, terrain height map and object height,
`PlaceOnTerrain` over a non-null terrain keeps the input's x and z and sets
the vertical coordinate to
`max 0.5 (GetHeightAt(x,z) + objectHeight + 1.0)`; in particular at
`(5, 0, 5)` with object height `1` the output height is
`max 0.5 (h + 1 + 1)` where `h` is the terrain height at `(5, 5)`. -/
theorem placeOnTerrain_spec (position : Vec3) (getHeightAt : HeightMap)
    (objectHeight : ℝ) :
    PlaceOnTerrain position (some getHeightAt) objectHeight =
      (position.1,
       max (1 / 2) (getHeightAt position.1 position.2.2 + objectHeight + 1),
       position.2.2) := by
  simp only [PlaceOnTerrain]
  by_cases h : getHeightAt position.1 position.2.2 + objectHeight + 1 < 1 / 2
  · rw [if_pos h, max_eq_left h.le]
  · rw [if_neg h, max_eq_right (le_of_not_lt h)]

/-- C9: with a null terrain reference, `PlaceOnTerrain` returns its input
position unchanged and `IsPositionFlat` is false, for every position,
object height and tolerance (both operations are total functions in the
model — no exception path exists). -/
theorem null_terrain_graceful (position : Vec3) (objectHeight tolerance : ℝ) :
    PlaceOnTerrain position none objectHeight = position ∧
      ¬ IsPositionFlat position none tolerance :=
  ⟨rfl, fun h => h⟩

/-- C8: `CreateZonedLayout` returns exactly five zones — the "treasure"
core (center `(0,0,0)`, radius 8) and the four themed zones (forest,
desert, mountain, grassland; radius 12; centers `(±15, 0, ±15)`) — and the
zones are pairwise non-overlapping: the distance between any two centers
exceeds the sum of the two radii. -/
theorem createZonedLayout_spec :
    CreateZonedLayout.length = 5 ∧
    CreateZonedLayout.map (fun z => z.theme) =
      ["treasure", "forest", "desert", "mountain", "grassland"] ∧
    CreateZonedLayout.map (fun z => z.center) =
      [(0, 0, 0), (15, 0, 15), (15, 0, -15), (-15, 0, 15), (-15, 0, -15)] ∧
    CreateZonedLayout.map (fun z => z.radius) = [8, 12, 12, 12, 12] ∧
    List.Pairwise
      (fun z1 z2 => z1.radius + z2.radius < dist3 z1.center z2.center)
      CreateZonedLayout := by
  refine ⟨rfl, rfl, rfl, rfl, ?_⟩
  simp only [CreateZonedLayout, List.pairwise_cons, List.mem_cons, List.mem_singleton,
    List.not_mem_nil]
  norm_num [dist3]
  repeat' apply And.intro
  all_goals exact Real.lt_sqrt_of_sq_lt (by norm_num)

end Placement

namespace Placement

lemma dist3_comm (a b : Vec3) : dist3 a b = dist3 b a := by
  unfold dist3
  congr 1
  ring

lemma attemptPlace_fst_some (zone : LayoutZone) (terrain : Option HeightMap)
    (used : List Vec3) :
    ∀ (fuel : ℕ) (g : RandStream) (pos : Vec3),
      (attemptPlace zone terrain used g fuel).1 = some pos →
      CheckMinimumDistance pos used zone.minDistance := by
  intro fuel
  induction fuel with
  | zero =>
      intro g pos h
      simp [attemptPlace] at h
  | succ fuel ih =>
      intro g pos h
      simp only [attemptPlace] at h
      split_ifs at h with h1 h2
      · simp only [Option.some.injEq] at h
        rw [← h]
        exact h2
      · exact ih _ _ h
      · exact ih _ _ h

lemma placeLoop_invariant (zone : LayoutZone) (terrain : Option HeightMap) :
    ∀ (k : ℕ) (g : RandStream) (used : List Vec3) (objs : List LayoutObject),
      objs.map (fun o => o.position) = used →
      List.Pairwise (fun a b => zone.minDistance ≤ dist3 a b) used →
      (placeLoop zone terrain k g used objs).2.map (fun o => o.position)
          = (placeLoop zone terrain k g used objs).1 ∧
      List.Pairwise (fun a b => zone.minDistance ≤ dist3 a b)
          (placeLoop zone terrain k g used objs).1 := by
  intro k
  induction k with
  | zero =>
      intro g used objs h1 h2
      simp only [placeLoop]
      exact ⟨h1, h2⟩
  | succ k ih =>
      intro g used objs h1 h2
      rcases hap : attemptPlace zone terrain used g 50 with ⟨o, g'⟩
      cases o with
      | none =>
          simp only [placeLoop, hap]
          exact ih g' used objs h1 h2
      | some pos =>
          have hchk : CheckMinimumDistance pos used zone.minDistance :=
            attemptPlace_fst_some zone terrain used 50 g pos (by rw [hap])
          simp only [placeLoop, hap]
          apply ih
          · rw [List.map_append, h1]
            rfl
          · rw [List.pairwise_append]
            refine ⟨h2, List.pairwise_singleton _ _, ?_⟩
            intro a ha b hb
            rw [List.mem_singleton] at hb
            subst hb
            have := hchk a ha
            rw [dist3_comm]
            exact le_of_not_lt this

/-- C3: for every zone, terrain and random stream, every pair of distinct
objects accepted into the zone by `PlaceObjectsInZone` lies at (3D,
post-snap) distance at least `zone.minDistance` — a candidate closer than
`minDistance` to a previously accepted position is rejected by
`CheckMinimumDistance` and therefore never accepted. -/
theorem zone_spacing_invariant (zone : LayoutZone) (terrain : Option HeightMap)
    (g : RandStream) :
    List.Pairwise
      (fun a b => zone.minDistance ≤ dist3 a.position b.position)
      (PlaceObjectsInZone zone terrain g) := by
  unfold PlaceObjectsInZone
  have h := placeLoop_invariant zone terrain zone.maxObjects g [] []
    rfl List.Pairwise.nil
  have h2 := h.2
  rw [← h.1] at h2
  exact List.pairwise_map.mp h2

end Placement

namespace Placement

lemma foldl_max_init_le (l : List ℝ) : ∀ b : ℝ, b ≤ l.foldl max b := by
  induction l with
  | nil => intro b; simp
  | cons x l ih =>
      intro b
      rw [List.foldl_cons]
      exact le_trans (le_max_left b x) (ih _)

lemma le_foldl_max_of_mem {a : ℝ} {l : List ℝ} (h : a ∈ l) :
    ∀ b : ℝ, a ≤ l.foldl max b := by
  induction l with
  | nil => cases h
  | cons x l ih =>
      intro b
      rcases List.mem_cons.mp h with rfl | h'
      · rw [List.foldl_cons]
        exact le_trans (le_max_right b a) (foldl_max_init_le l _)
      · rw [List.foldl_cons]
        exact ih h' (max b x)

lemma foldl_max_le (l : List ℝ) (c : ℝ) :
    ∀ b : ℝ, b ≤ c → (∀ a ∈ l, a ≤ c) → l.foldl max b ≤ c := by
  induction l with
  | nil => intro b hb _; simpa using hb
  | cons x l ih =>
      intro b hb h
      rw [List.foldl_cons]
      exact ih (max b x) (max_le hb (h x (List.mem_cons_self x l)))
        (fun a ha => h a (List.mem_cons_of_mem x ha))

lemma sin_sample_ne_zero (i : ℕ) (h8 : i < 8) (h0 : i ≠ 0) (h4 : i ≠ 4) :
    Real.sin (2 * Real.pi * i / 8) ≠ 0 := by
  intro hsin
  rw [Real.sin_eq_zero_iff] at hsin
  obtain ⟨n, hn⟩ := hsin
  have hpi := Real.pi_ne_zero
  have h4n : (4 * n : ℝ) = (i : ℝ) := by
    have h1 : (n : ℝ) * Real.pi * 4 = 2 * Real.pi * i / 8 * 4 := by rw [hn]
    have h2 : (4 * n : ℝ) * Real.pi = (i : ℝ) * Real.pi := by
      ring_nf
      ring_nf at h1
      linarith
    exact mul_right_cancel₀ hpi h2
  have h4n' : (4 * n : ℤ) = (i : ℤ) := by exact_mod_cast h4n
  omega

/-- C7 (amended): `IsPositionFlat` over a constant height field returns
true at every position for every tolerance ≥ 0; and it returns false for
every tolerance < 10 whenever one of the 8 sampled circle points (radius 2)
differs from the center height by at least 10.  The check inspects only
those 8 samples, so a 10-unit discontinuity inside the check radius is
detected only when it separates a sampled point from the center. -/
theorem flatness_sampling_spec (c : ℝ) (position : Vec3) (tolerance : ℝ)
    (getHeightAt : HeightMap) (i : ℕ) :
    (0 ≤ tolerance → IsPositionFlat position (some fun _ _ => c) tolerance) ∧
    (i < 8 → tolerance < 10 →
      10 ≤ |getHeightAt (checkPoint position 2 i).1 (checkPoint position 2 i).2 -
            getHeightAt position.1 position.2.2| →
      ¬ IsPositionFlat position (some getHeightAt) tolerance) := by
  constructor
  · intro htol
    show GetAreaHeightVariation position (some fun _ _ => c) 2 ≤ tolerance
    simp only [GetAreaHeightVariation]
    apply foldl_max_le _ _ _ htol
    intro a ha
    obtain ⟨k, hk, rfl⟩ := List.mem_map.mp ha
    simp
    exact htol
  · intro hi htol hdiff hflat
    have hvle : GetAreaHeightVariation position (some getHeightAt) 2 ≤ tolerance := hflat
    have hmem :
        |getHeightAt (checkPoint position 2 i).1 (checkPoint position 2 i).2 -
          getHeightAt position.1 position.2.2|
        ∈ (List.range 8).map (fun k =>
            |getHeightAt (checkPoint position 2 k).1 (checkPoint position 2 k).2 -
              getHeightAt position.1 position.2.2|) :=
      List.mem_map.mpr ⟨i, List.mem_range.mpr hi, rfl⟩
    have hge : (10 : ℝ) ≤ GetAreaHeightVariation position (some getHeightAt) 2 := by
      simp only [GetAreaHeightVariation]
      exact le_trans hdiff (le_foldl_max_of_mem hmem 0)
    linarith

/-- C7 counterexample: `hSpike` jumps by 10 inside the check radius (between
`(1,0)` and `(1.5,0)`, both within distance 2 of the origin), yet
`IsPositionFlat` at the origin returns true even at tolerance `0 < 10`,
because none of the 8 sampled circle points hits the discontinuity —
refuting the claim for an arbitrary discontinuity inside the radius. -/
theorem flatness_missed_discontinuity :
    hSpike 1 0 - hSpike (3 / 2) 0 = 10 ∧ (0 : ℝ) < 10 ∧
    IsPositionFlat ((0 : ℝ), (0 : ℝ), (0 : ℝ)) (some hSpike) 0 := by
  refine ⟨by norm_num [hSpike], by norm_num, ?_⟩
  show GetAreaHeightVariation ((0 : ℝ), (0 : ℝ), (0 : ℝ)) (some hSpike) 2 ≤ 0
  have hcen : hSpike ((0 : ℝ), (0 : ℝ), (0 : ℝ)).1 ((0 : ℝ), (0 : ℝ), (0 : ℝ)).2.2 = 0 := by
    norm_num [hSpike]
  have hsample : ∀ k : ℕ, k < 8 →
      hSpike (checkPoint ((0 : ℝ), (0 : ℝ), (0 : ℝ)) 2 k).1
        (checkPoint ((0 : ℝ), (0 : ℝ), (0 : ℝ)) 2 k).2 = 0 := by
    intro k h8
    by_cases h0 : k = 0
    · subst h0
      simp only [checkPoint]
      norm_num [hSpike]
    · by_cases h4 : k = 4
      · subst h4
        simp only [checkPoint]
        have e4 : 2 * Real.pi * ((4 : ℕ) : ℝ) / 8 = Real.pi := by push_cast; ring
        rw [e4, Real.cos_pi]
        norm_num [hSpike]
      · simp only [checkPoint]
        unfold hSpike
        rw [if_neg]
        rintro ⟨-, hzz⟩
        exact sin_sample_ne_zero k h8 h0 h4 (by linarith)
  simp only [GetAreaHeightVariation]
  apply foldl_max_le _ _ _ le_rfl
  intro a ha
  obtain ⟨k, hk, rfl⟩ := List.mem_map.mp ha
  rw [hsample k (List.mem_range.mp hk), hcen]
  norm_num

/-- C7 witness: a constant field of height 5 passes the flatness check at
tolerance 0, and `hStep` (whose jump lies on the sampled point `(2, 0)`)
fails it at tolerance `0 < 10`. -/
theorem flatness_sampling_witness :
    IsPositionFlat ((0 : ℝ), (0 : ℝ), (0 : ℝ)) (some fun _ _ => (5 : ℝ)) 0 ∧
    ¬ IsPositionFlat ((0 : ℝ), (0 : ℝ), (0 : ℝ)) (some hStep) 0 :=
  ⟨(flatness_sampling_spec 5 ((0 : ℝ), (0 : ℝ), (0 : ℝ)) 0 hStep 0).1 le_rfl,
   (flatness_sampling_spec 5 ((0 : ℝ), (0 : ℝ), (0 : ℝ)) 0 hStep 0).2
     (by norm_num) (by norm_num)
     (by simp only [checkPoint]; norm_num [hStep])⟩

end Placement

namespace Terrain

lemma createChunk_indices_bounded (p : TerrainParams) (noise : Noise) (a b : ℤ) :
    ∀ i ∈ (CreateChunk p noise a b).indices,
      i < (CreateChunk p noise a b).vertices.length := by
  intro i hi
  unfold CreateChunk at hi ⊢
  simp only [] at hi ⊢
  rw [chunkVerticesList_length]
  unfold chunkIndicesList at hi
  simp only [List.mem_flatMap, List.mem_range] at hi
  obtain ⟨z, hz, x, hx, hi⟩ := hi
  have hz1 : z + 2 ≤ p.chunkSize := by omega
  have hx1 : x + 1 < p.chunkSize := by omega
  have f1 : (z + 2) * p.chunkSize ≤ p.chunkSize * p.chunkSize :=
    Nat.mul_le_mul_right p.chunkSize hz1
  have e1 : (z + 2) * p.chunkSize = (z + 1) * p.chunkSize + p.chunkSize := by ring
  have e2 : (z + 1) * p.chunkSize = z * p.chunkSize + p.chunkSize := by ring
  simp only [List.mem_cons, List.not_mem_nil, or_false] at hi
  rcases hi with rfl | rfl | rfl | rfl | rfl | rfl <;> linarith

lemma mem_generateWindow_fold (p : TerrainParams) (noise : Noise) :
    ∀ (coords : List (ℤ × ℤ)) (chunks : List TerrainChunk) (flag : Bool)
      (ch : TerrainChunk),
      ch ∈ (coords.foldl
        (fun acc xz =>
          if chunkExistsAt p acc.1 xz.1 xz.2 then acc
          else (acc.1 ++ [CreateChunk p noise xz.1 xz.2], true))
        (chunks, flag)).1 →
      ch ∈ chunks ∨ ∃ c : ℤ × ℤ, ch = CreateChunk p noise c.1 c.2 := by
  intro coords
  induction coords with
  | nil =>
      intro chunks flag ch h
      exact Or.inl h
  | cons c rest ih =>
      intro chunks flag ch h
      rw [List.foldl_cons] at h
      by_cases hex : chunkExistsAt p chunks c.1 c.2 = true
      · rw [if_pos hex] at h
        exact ih chunks flag ch h
      · rw [if_neg hex] at h
        rcases ih (chunks ++ [CreateChunk p noise c.1 c.2]) true ch h with h' | h'
        · rcases List.mem_append.mp h' with h'' | h''
          · exact Or.inl h''
          · exact Or.inr ⟨c, (List.mem_singleton.mp h'')⟩
        · exact Or.inr h'

lemma execOps_chunks_bounded (p : TerrainParams) (noise : Noise) :
    ∀ (ops : List Op) (s : TerrainState),
      (∀ ch ∈ s.chunks, ∀ i ∈ ch.indices, i < ch.vertices.length) →
      ∀ ch ∈ (execOps p noise s ops).chunks, ∀ i ∈ ch.indices,
        i < ch.vertices.length := by
  intro ops
  induction ops with
  | nil =>
      intro s hs
      exact hs
  | cons op rest ih =>
      intro s hs
      unfold execOps
      rw [List.foldl_cons]
      have hnext : ∀ ch ∈ (execOp p noise s op).chunks, ∀ i ∈ ch.indices,
          i < ch.vertices.length := by
        cases op with
        | reset => exact hs
        | generate c =>
            simp only [execOp, GenerateTerrainAt]
            split
            · exact hs
            · intro ch hch
              simp only [] at hch
              unfold CleanupDistantChunks at hch
              have hmem := (List.mem_filter.mp hch).1
              unfold generateWindow at hmem
              rcases mem_generateWindow_fold p noise _ s.chunks false ch hmem with h' | h'
              · exact hs ch h'
              · obtain ⟨d, rfl⟩ := h'
                exact createChunk_indices_bounded p noise d.1 d.2
      exact ih (execOp p noise s op) hnext

lemma getCollisionData_fold_bounded :
    ∀ (chunks : List TerrainChunk) (accV : List (ℚ × ℚ × ℚ)) (accI : List ℕ),
      (∀ ch ∈ chunks, ∀ i ∈ ch.indices, i < ch.vertices.length) →
      (∀ k ∈ accI, k < accV.length) →
      ∀ k ∈ (chunks.foldl
          (fun (acc : List (ℚ × ℚ × ℚ) × List ℕ × ℕ) chunk =>
            if chunk.isGenerated then
              (acc.1 ++ chunk.vertices.map (fun v => v.position),
               acc.2.1 ++ chunk.indices.map (fun i => i + acc.2.2),
               acc.2.2 + chunk.vertices.length)
            else acc)
          (accV, accI, accV.length)).2.1,
        k < (chunks.foldl
          (fun (acc : List (ℚ × ℚ × ℚ) × List ℕ × ℕ) chunk =>
            if chunk.isGenerated then
              (acc.1 ++ chunk.vertices.map (fun v => v.position),
               acc.2.1 ++ chunk.indices.map (fun i => i + acc.2.2),
               acc.2.2 + chunk.vertices.length)
            else acc)
          (accV, accI, accV.length)).1.length := by
  intro chunks
  induction chunks with
  | nil =>
      intro accV accI _ hinv
      exact hinv
  | cons ch rest ih =>
      intro accV accI hwf hinv
      rw [List.foldl_cons]
      by_cases hg : ch.isGenerated = true
      · rw [if_pos hg]
        have hlen : (accV ++ ch.vertices.map (fun v => v.position)).length
            = accV.length + ch.vertices.length := by
          rw [List.length_append, List.length_map]
        have hinv' : ∀ k ∈ accI ++ ch.indices.map (fun i => i + accV.length),
            k < (accV ++ ch.vertices.map (fun v => v.position)).length := by
          intro k hk
          rw [hlen]
          rcases List.mem_append.mp hk with hk' | hk'
          · have := hinv k hk'
            omega
          · obtain ⟨j, hj, rfl⟩ := List.mem_map.mp hk'
            have := hwf ch (List.mem_cons_self ch rest) j hj
            omega
        have := ih (accV ++ ch.vertices.map (fun v => v.position))
          (accI ++ ch.indices.map (fun i => i + accV.length))
          (fun c hc => hwf c (List.mem_cons_of_mem ch hc)) hinv'
        rw [hlen] at this
        exact this
      · rw [if_neg hg]
        exact ih accV accI (fun c hc => hwf c (List.mem_cons_of_mem ch hc)) hinv

/-- C10: for every reachable chunk-store state (any operation sequence from
the freshly constructed state) and any caller-supplied output vectors,
`GetCollisionData` first clears both outputs (the result is independent of
their previous contents) and fills them so that every emitted index — each
chunk's indices shifted by the cumulative vertex offset of the generated
chunks emitted before it — is strictly less than the final length of the
emitted vertex list, so the aggregated mesh never references a missing
vertex. -/
theorem collision_indices_in_bounds (p : TerrainParams) (noise : Noise)
    (ops : List Op) (verticesIn : List (ℚ × ℚ × ℚ)) (indicesIn : List ℕ) :
    (∀ k ∈ (GetCollisionData (execOps p noise initialState ops) verticesIn indicesIn).2,
        k < (GetCollisionData (execOps p noise initialState ops)
              verticesIn indicesIn).1.length) ∧
    GetCollisionData (execOps p noise initialState ops) verticesIn indicesIn
      = GetCollisionData (execOps p noise initialState ops) [] [] := by
  constructor
  · have hwf : ∀ ch ∈ (execOps p noise initialState ops).chunks,
        ∀ i ∈ ch.indices, i < ch.vertices.length :=
      execOps_chunks_bounded p noise ops initialState (by intro ch hch; cases hch)
    intro k hk
    unfold GetCollisionData at hk ⊢
    exact getCollisionData_fold_bounded (execOps p noise initialState ops).chunks
      [] [] hwf (by intro k hk'; cases hk') k hk
  · rfl

set_option maxRecDepth 100000 in
attribute [local semireducible] Rat.add Rat.mul Rat.sub Rat.inv Rat.ofScientific in
/-- C10 witness: in the state reached by one generate call, index `0` is
emitted and the emitted vertex list is nonempty, so the bound applies
non-vacuously. -/
theorem collision_indices_in_bounds_witness :
    0 ∈ (GetCollisionData (execOps traceParams zeroNoise initialState
          [Op.generate (0, 0)]) [] []).2 ∧
    0 < (GetCollisionData (execOps traceParams zeroNoise initialState
          [Op.generate (0, 0)]) [] []).1.length :=
  have h : 0 ∈ (GetCollisionData (execOps traceParams zeroNoise initialState
      [Op.generate (0, 0)]) [] []).2 := by decide
  ⟨h, (collision_indices_in_bounds traceParams zeroNoise
        [Op.generate (0, 0)] [] []).1 0 h⟩

end Terrain
